import Mathlib

set_option maxRecDepth 8000

/-!
Shallow embedding of the chordfinder key-aware note-spelling and
harmonic-function analysis engine: the key catalog and note speller of
src/chord-utils.js, the chord-function analyzer module (analyzeChordFunction,
extractChordRoot, getScaleDegree, generateRomanNumeral, getHarmonicFunction,
detectBorrowedChord, detectSecondaryDominant), the history insertion of
src/main.js, and the tonal.js pitch primitives those modules call
(Note.get, Note.transpose, Note.enharmonic, Chord.get's type field).
-/

namespace Chordfinder

/-- Letter step of a note letter, per tonal's tokenizer character class
[a-gA-G]: the index of the uppercased letter in the string CDEFGAB. -/
def letterStep (c : Char) : Option Nat :=
  if c = 'C' ∨ c = 'c' then some 0
  else if c = 'D' ∨ c = 'd' then some 1
  else if c = 'E' ∨ c = 'e' then some 2
  else if c = 'F' ∨ c = 'f' then some 3
  else if c = 'G' ∨ c = 'g' then some 4
  else if c = 'A' ∨ c = 'a' then some 5
  else if c = 'B' ∨ c = 'b' then some 6
  else none

/-- Whitespace as matched by the JavaScript regular-expression space class
(ASCII portion; the repository's inputs carry at most plain spaces). -/
def isJsSpace (c : Char) : Bool :=
  ([' ', '\t', '\n', '\r', '\x0b', '\x0c'] : List Char).contains c

/-- Parsed pitch class as produced by tonal Note.get: the letter step
(0-6 indexing CDEFGAB) and the alteration (positive sharps, negative
flats; the double-sharp letter x counts two). -/
structure PNote where
  step : Nat
  alt : Int
deriving DecidableEq, Repr

/-- Length of the maximal run of the character c at the front of a list,
with the remainder. -/
def accRun (c : Char) : List Char → Nat × List Char
  | [] => (0, [])
  | d :: rest =>
    if d = c then
      let (n, r) := accRun c rest
      (n + 1, r)
    else (0, d :: rest)

/-- The accidental token of tonal's tokenizer: a maximal run of sharps,
of flat letters b, or of double-sharp letters x (alternatives tried in
that order), converted to an alteration count. -/
def takeAcc : List Char → Int × List Char
  | [] => (0, [])
  | d :: rest =>
    if d = '#' then
      let (n, r) := accRun '#' rest
      ((n : Int) + 1, r)
    else if d = 'b' then
      let (n, r) := accRun 'b' rest
      (-((n : Int) + 1), r)
    else if d = 'x' then
      let (n, r) := accRun 'x' rest
      (2 * ((n : Int) + 1), r)
    else (0, d :: rest)

/-- Drops the maximal run satisfying p from the front of the list. -/
def dropRun (p : Char → Bool) : List Char → List Char
  | [] => []
  | c :: rest => if p c then dropRun p rest else c :: rest

/-- Drops one leading minus sign if present (the optional sign of the
octave token). -/
def dropMinus : List Char → List Char
  | '-' :: r => r
  | r => r

/-- tonal Note.get restricted to the pitch-class data the repository reads:
letter, accidental run, optional signed octave digits and trailing spaces
must exhaust the string, otherwise the parse is the empty note (none). -/
def noteGetL (l : List Char) : Option PNote :=
  match l with
  | [] => none
  | c :: rest =>
    match letterStep c with
    | none => none
    | some st =>
      let (alt, r1) := takeAcc rest
      let r2 := dropRun Char.isDigit (dropMinus r1)
      let r3 := dropRun isJsSpace r2
      if r3 = [] then some ⟨st, alt⟩ else none

/-- Note.get on a string. -/
def noteGet (s : String) : Option PNote := noteGetL s.data

/-- Chromatic value of each natural letter step (tonal's SEMI table
[0, 2, 4, 5, 7, 9, 11]; the tokenizer only produces steps 0-6, so the
default is never consulted). -/
def semiOf : Nat → Int
  | 0 => 0
  | 1 => 2
  | 2 => 4
  | 3 => 5
  | 4 => 7
  | 5 => 9
  | 6 => 11
  | _ => 0

/-- Chroma of a parsed note: (SEMI[step] + alt + 120) % 12 with the
JavaScript truncated remainder. -/
def chroma (p : PNote) : Int := (semiOf p.step + p.alt + 120).tmod 12

/-- Chroma of a raw note spelling, none when the spelling does not parse. -/
def noteChromaL (l : List Char) : Option Int := (noteGetL l).map chroma

/-- Chroma of a raw note spelling given as a string. -/
def noteChroma (s : String) : Option Int := noteChromaL s.data

/-- Letter character of a step (steps above 6 are never produced). -/
def letterOf : Nat → Char
  | 0 => 'C'
  | 1 => 'D'
  | 2 => 'E'
  | 3 => 'F'
  | 4 => 'G'
  | 5 => 'A'
  | _ => 'B'

/-- Pitch-class name of a parsed note, as tonal's pc property renders it:
uppercase letter followed by the accidental marks. -/
def pcChars (p : PNote) : List Char :=
  letterOf p.step ::
    (if 0 ≤ p.alt then List.replicate p.alt.toNat '#'
     else List.replicate (-p.alt).toNat 'b')

/-- Fifths coordinate of each natural letter step (tonal's FIFTHS table
[0, 2, 4, -1, 1, 3, 5]). -/
def fifthsOf : Nat → Int
  | 0 => 0
  | 1 => 2
  | 2 => 4
  | 3 => -1
  | 4 => 1
  | 5 => 3
  | _ => 5

/-- Decoding table from an unaltered fifths residue to a letter step
(tonal's FIFTHS_TO_STEPS [3, 0, 4, 1, 5, 2, 6]). -/
def fifthsToStep : Nat → Nat
  | 0 => 3
  | 1 => 0
  | 2 => 4
  | 3 => 1
  | 4 => 5
  | 5 => 2
  | _ => 6

/-- Pitch-class name of a fifths coordinate (tonal's coordinate decoding:
letter from the residue of f + 1 modulo 7, alteration from the floor
quotient). -/
def noteOfFifths (f : Int) : List Char :=
  pcChars ⟨fifthsToStep ((f + 1).emod 7).toNat, (f + 1).fdiv 7⟩

/-- tonal Note.transpose for the interval names the repository uses, the
interval given by its fifths coordinate (1P is 0, 2M is 2, 3m is -3,
4P is -1, 5P is 1, 6m is -4, 7m is -2). Unparseable notes give the empty
string, as Note.transpose does. -/
def transposeFifths (n : List Char) (ivFifths : Int) : List Char :=
  match noteGetL n with
  | none => []
  | some p => noteOfFifths (fifthsOf p.step + 7 * p.alt + ivFifths)

/-- The fixed sharp-name table of chord-utils.js, identical to tonal's
sharp pitch-class table used by Note.enharmonic. -/
def SHARP_NAMES : List String :=
  ["C", "C#", "D", "D#"] ++ ["E", "F", "F#", "G"] ++ ["G#", "A", "A#", "B"]

/-- The fixed flat-name table of chord-utils.js, identical to tonal's
flat pitch-class table used by Note.enharmonic. -/
def FLAT_NAMES : List String :=
  ["C", "Db", "D", "Eb"] ++ ["E", "F", "Gb", "G"] ++ ["Ab", "A", "Bb", "B"]

/-- tonal Note.enharmonic with no explicit destination: renames the pitch
class from the chromatic table of the opposite accidental family (sharp
names when the source is flat, flat names otherwise). The sub-zero chroma
guard mirrors an out-of-range table index (unreachable for the catalog
tonics this repository feeds it). -/
def enharmonicL (n : List Char) : List Char :=
  match noteGetL n with
  | none => []
  | some p =>
    if 0 ≤ chroma p then
      match (if p.alt < 0 then SHARP_NAMES else FLAT_NAMES).get? (chroma p).toNat with
      | some nm => nm.data
      | none => []
    else []

/-- Whether the list starts with the pattern. -/
def startsWithL (l pat : List Char) : Bool :=
  match pat, l with
  | [], _ => true
  | p :: ps, c :: cs => p == c && startsWithL cs ps
  | _, [] => false

/-- Whether the pattern occurs as a contiguous subsequence (the JavaScript
substring match). -/
def containsSeqL (l pat : List Char) : Bool :=
  match l with
  | [] => pat.isEmpty
  | _ :: rest => startsWithL l pat || containsSeqL rest pat

/-- ASCII lowercasing of a character list. -/
def lowerL (l : List Char) : List Char := l.map Char.toLower

/-- KeyDefinition of chord-utils.js after normalizeKeyDefinitions: the
authored entry with its mode attached. The derived diatonicMap is modelled
by diatonicMapGet below. -/
structure KeyDef where
  id : String
  label : String
  mode : String
  scale : List String
  accidental : String
deriving DecidableEq, Repr

instance : Inhabited KeyDef := ⟨⟨"", "", "", [], ""⟩⟩

/-- The MAJOR_KEYS table of chord-utils.js (mode major attached, as
normalizeKeyDefinitions does). -/
def MAJOR_KEYS : List KeyDef :=
  [⟨"C", "C major", "major", ["C", "D", "E", "F", "G", "A", "B"], "sharp"⟩,
   ⟨"G", "G major", "major", ["G", "A", "B", "C", "D", "E", "F#"], "sharp"⟩,
   ⟨"D", "D major", "major", ["D", "E", "F#", "G", "A", "B", "C#"], "sharp"⟩,
   ⟨"A", "A major", "major", ["A", "B", "C#", "D", "E", "F#", "G#"], "sharp"⟩,
   ⟨"E", "E major", "major", ["E", "F#", "G#", "A", "B", "C#", "D#"], "sharp"⟩,
   ⟨"B", "B major", "major", ["B", "C#", "D#", "E", "F#", "G#", "A#"], "sharp"⟩,
   ⟨"F#", "F# major", "major", ["F#", "G#", "A#", "B", "C#", "D#", "E#"], "sharp"⟩,
   ⟨"C#", "C# major", "major", ["C#", "D#", "E#", "F#", "G#", "A#", "B#"], "sharp"⟩,
   ⟨"F", "F major", "major", ["F", "G", "A", "Bb", "C", "D", "E"], "flat"⟩,
   ⟨"Bb", "Bb major", "major", ["Bb", "C", "D", "Eb", "F", "G", "A"], "flat"⟩,
   ⟨"Eb", "Eb major", "major", ["Eb", "F", "G", "Ab", "Bb", "C", "D"], "flat"⟩,
   ⟨"Ab", "Ab major", "major", ["Ab", "Bb", "C", "Db", "Eb", "F", "G"], "flat"⟩,
   ⟨"Db", "Db major", "major", ["Db", "Eb", "F", "Gb", "Ab", "Bb", "C"], "flat"⟩,
   ⟨"Gb", "Gb major", "major", ["Gb", "Ab", "Bb", "Cb", "Db", "Eb", "F"], "flat"⟩,
   ⟨"Cb", "Cb major", "major", ["Cb", "Db", "Eb", "Fb", "Gb", "Ab", "Bb"], "flat"⟩]

/-- The MINOR_KEYS table of chord-utils.js (mode minor attached). -/
def MINOR_KEYS : List KeyDef :=
  [⟨"A", "A minor", "minor", ["A", "B", "C", "D", "E", "F", "G"], "sharp"⟩,
   ⟨"E", "E minor", "minor", ["E", "F#", "G", "A", "B", "C", "D"], "sharp"⟩,
   ⟨"B", "B minor", "minor", ["B", "C#", "D", "E", "F#", "G", "A"], "sharp"⟩,
   ⟨"F#", "F# minor", "minor", ["F#", "G#", "A", "B", "C#", "D", "E"], "sharp"⟩,
   ⟨"C#", "C# minor", "minor", ["C#", "D#", "E", "F#", "G#", "A", "B"], "sharp"⟩,
   ⟨"G#", "G# minor", "minor", ["G#", "A#", "B", "C#", "D#", "E", "F#"], "sharp"⟩,
   ⟨"D#", "D# minor", "minor", ["D#", "E#", "F#", "G#", "A#", "B", "C#"], "sharp"⟩,
   ⟨"A#", "A# minor", "minor", ["A#", "B#", "C#", "D#", "E#", "F#", "G#"], "sharp"⟩,
   ⟨"D", "D minor", "minor", ["D", "E", "F", "G", "A", "Bb", "C"], "flat"⟩,
   ⟨"G", "G minor", "minor", ["G", "A", "Bb", "C", "D", "Eb", "F"], "flat"⟩,
   ⟨"C", "C minor", "minor", ["C", "D", "Eb", "F", "G", "Ab", "Bb"], "flat"⟩,
   ⟨"F", "F minor", "minor", ["F", "G", "Ab", "Bb", "C", "Db", "Eb"], "flat"⟩,
   ⟨"Bb", "Bb minor", "minor", ["Bb", "C", "Db", "Eb", "F", "Gb", "Ab"], "flat"⟩,
   ⟨"Eb", "Eb minor", "minor", ["Eb", "F", "Gb", "Ab", "Bb", "Cb", "Db"], "flat"⟩,
   ⟨"Ab", "Ab minor", "minor", ["Ab", "Bb", "Cb", "Db", "Eb", "Fb", "Gb"], "flat"⟩]

/-- KEY_DEFINITIONS: the normalized major keys followed by the normalized
minor keys. -/
def KEY_DEFINITIONS : List KeyDef := MAJOR_KEYS ++ MINOR_KEYS

/-- One insertion step of buildDiatonicMap, viewed from the key c being
retrieved: a scale note whose chroma is c overrides the accumulator,
unparseable notes are skipped. -/
def diatonicStep (c : Int) (acc : Option String) (n : String) : Option String :=
  match noteChroma n with
  | some cn => if cn = c then some n else acc
  | none => acc

/-- Retrieval from the derived diatonicMap: buildDiatonicMap inserts each
scale note keyed by its chroma, skipping unparseable notes, later inserts
overriding earlier ones; retrieval is therefore a left fold over the
scale. -/
def diatonicMapGet (k : KeyDef) (c : Int) : Option String :=
  k.scale.foldl (diatonicStep c) none

/-- getKeyDefinition of chord-utils.js: the first entry whose id and mode
match, with the first catalog entry as fallback. -/
def getKeyDefinition (root mode : String) : KeyDef :=
  match KEY_DEFINITIONS.find? (fun k => k.id == root && k.mode == mode) with
  | some k => k
  | none => KEY_DEFINITIONS.headI

/-- selectAccidentalName of chord-utils.js: chromatic table lookup by
chroma and accidental preference; an out-of-range index is the JavaScript
undefined, modelled as none. -/
def selectAccidentalName (c : Int) (preference : String) : Option String :=
  let table := if preference == "flat" then FLAT_NAMES else SHARP_NAMES
  if 0 ≤ c then table.get? c.toNat else none

/-- spellNoteInKey of chord-utils.js. A note with no chroma is returned
unchanged; a diatonic chroma takes its mapped spelling (an empty mapped
string would be falsy and fall through, which never happens for the
catalog); otherwise the chromatic table of the key's accidental bias
decides. The none result models the undefined produced by an out-of-range
chromatic index. -/
def spellNoteInKey (note : String) (k : KeyDef) : Option String :=
  match noteChroma note with
  | none => some note
  | some c =>
    match diatonicMapGet k c with
    | some d => if d = "" then selectAccidentalName c k.accidental else some d
    | none => selectAccidentalName c k.accidental

/-- ChordFunctionResult of the chord-function analyzer; absent JavaScript
fields are none. -/
structure ChordFunctionResult where
  function : String
  roman : String
  color : String
  scaleDegree : Option Nat
  chordRoot : String
  borrowedFrom : Option String
  targetsDegree : Option Nat
  description : Option String
deriving DecidableEq, Repr

/-- Characters removed by the sanitizing replace of extractChordRoot
(parentheses, commas and whitespace). -/
def isStripped (c : Char) : Bool := c == '(' || c == ')' || c == ',' || isJsSpace c

/-- extractChordRoot of the chord-function module: strip parentheses,
commas and spaces, match a leading letter with one optional accidental
character (the match is case-insensitive, so an uppercase B also counts as
a flat mark), require the matched text to parse as a note, and return it
uppercased. -/
def extractChordRootL (l : List Char) : Option (List Char) :=
  match l.filter (fun c => !isStripped c) with
  | [] => none
  | c0 :: rest =>
    if (letterStep c0).isSome then
      let root :=
        match rest with
        | c1 :: _ => if c1 = '#' ∨ c1 = 'b' ∨ c1 = 'B' then [c0, c1] else [c0]
        | [] => [c0]
      if (noteGetL root).isSome then some (root.map Char.toUpper) else none
    else none

/-- getScaleDegree of the chord-function module: position (1-based) of the
note's pitch-class spelling among the scale notes' pitch-class spellings,
none when the note does not parse or is not found. -/
def getScaleDegreeL (note : List Char) (k : KeyDef) : Option Nat :=
  match noteGetL note with
  | none => none
  | some p =>
    match k.scale.findIdx? (fun sn =>
      match noteGetL sn.data with
      | some q => pcChars q == pcChars p
      | none => false) with
    | some i => some (i + 1)
    | none => none

/-- Full-string ASCII lowercasing, as the JavaScript toLowerCase acts on
the Roman numerals. -/
def lowerStr (s : String) : String := ⟨lowerL s.data⟩

/-- generateRomanNumeral of the chord-function module. -/
def generateRomanNumeral (scaleDegree : Nat) (mode : String) : String :=
  if scaleDegree < 1 ∨ scaleDegree > 7 then "N/A"
  else
    let roman := ["I", "II", "III", "IV", "V", "VI", "VII"].getD (scaleDegree - 1) ""
    if mode == "major" then
      if scaleDegree = 2 ∨ scaleDegree = 3 ∨ scaleDegree = 6 then lowerStr roman
      else if scaleDegree = 7 then lowerStr roman ++ "°"
      else roman
    else if mode == "minor" then
      if scaleDegree = 1 ∨ scaleDegree = 4 ∨ scaleDegree = 5 then lowerStr roman
      else if scaleDegree = 2 then lowerStr roman ++ "°"
      else roman
    else roman

/-- getHarmonicFunction of the chord-function module, returning the
function label and its color. -/
def getHarmonicFunction (scaleDegree : Nat) (mode : String) : String × String :=
  if mode == "major" then
    if scaleDegree = 1 ∨ scaleDegree = 3 ∨ scaleDegree = 6 then ("tonic", "green")
    else if scaleDegree = 4 ∨ scaleDegree = 2 then ("subdominant", "blue")
    else if scaleDegree = 5 ∨ scaleDegree = 7 then ("dominant", "red")
    else ("tonic", "green")
  else if mode == "minor" then
    if scaleDegree = 1 ∨ scaleDegree = 3 ∨ scaleDegree = 6 then ("tonic", "green")
    else if scaleDegree = 4 ∨ scaleDegree = 2 then ("subdominant", "blue")
    else if scaleDegree = 5 ∨ scaleDegree = 7 then ("dominant", "red")
    else ("tonic", "green")
  else ("tonic", "green")

/-- Models the check Chord.get(chordSymbol).type being the string dominant.
tonal's chord-type catalog names the dominant-seventh family of qualities
"dominant seventh", "dominant ninth" and so on; no catalog entry is named
exactly "dominant", so the comparison is false for every symbol and the
textual heuristic below is the only live disjunct. -/
def chordTypeIsDominant (_l : List Char) : Bool := false

/-- The dominant-seventh test of the chord-function module: the structured
type check (see chordTypeIsDominant) or the textual heuristic, namely that
the symbol contains a 7 and matches none of maj7, m7, dim7 (folded to
lowercase, as the case-insensitive flag does) nor the slashed o in either
of its cases. -/
def isDominant7thL (l : List Char) : Bool :=
  chordTypeIsDominant l ||
    (l.any (fun c => c == '7') &&
      !(containsSeqL (lowerL l) "maj7".data || containsSeqL (lowerL l) "m7".data ||
        containsSeqL (lowerL l) "dim7".data || containsSeqL l "ø".data ||
        containsSeqL l "Ø".data))

/-- The record produced by generateBorrowedRomanNumeral. -/
structure BorrowedInfo where
  roman : String
  color : String
  scaleDegree : Nat
  borrowedFrom : String
  description : String
deriving DecidableEq, Repr

/-- buildParallelMinorScale: the tonic transposed by the natural-minor
intervals 1P, 2M, 3m, 4P, 5P, 6m, 7m (fifths coordinates 0, 2, -3, -1, 1,
-4, -2), each renamed with Note.enharmonic. -/
def buildParallelMinorScaleL (tonic : List Char) : List (List Char) :=
  [0, 2, -3, -1, 1, -4, -2].map (fun f => enharmonicL (transposeFifths tonic f))

/-- isNoteDifferentInParallelMinor: the note's chroma occurs in the
parallel-minor scale but not in the major scale (chroma comparisons, the
possibly-absent chromas compared exactly as JavaScript compares the
possibly-undefined values). -/
def isNoteDifferentInParallelMinorL (note : List Char) (majorScale : List String)
    (minorScale : List (List Char)) : Bool :=
  let rc := noteChromaL note
  let inMajor := majorScale.any (fun sn => noteChroma sn == rc)
  let inMinor := minorScale.any (fun sn => noteChromaL sn == rc)
  !inMajor && inMinor

/-- generateBorrowedRomanNumeral: the fixed borrowed-label table on
parallel-minor scale degrees 3, 6, 7 and 4. -/
def generateBorrowedRomanNumeral (scaleDegree : Nat) : Option BorrowedInfo :=
  if scaleDegree = 3 then
    some ⟨"bIII", "green", 3, "minor", "平行小調借用 - 降三級大和弦"⟩
  else if scaleDegree = 6 then
    some ⟨"bVI", "blue", 6, "minor", "平行小調借用 - 降六級大和弦"⟩
  else if scaleDegree = 7 then
    some ⟨"bVII", "red", 7, "minor", "平行小調借用 - 降七級大和弦"⟩
  else if scaleDegree = 4 then
    some ⟨"iv", "blue", 4, "minor", "平行小調借用 - 四級小和弦"⟩
  else none

/-- detectBorrowedChord of the chord-function module: major mode only,
tonic taken from the key id (the tonic field is absent), the chord root
searched by pitch-class spelling in the parallel natural-minor scale, and
accepted only when its chroma is absent from the major scale. -/
def detectBorrowedChordL (chordRoot : List Char) (k : KeyDef) : Option BorrowedInfo :=
  if k.mode == "major" then
    if k.id == "" then none
    else
      let pms := buildParallelMinorScaleL k.id.data
      match noteGetL chordRoot with
      | some rp =>
        match pms.findIdx? (fun sn =>
          match noteGetL sn with
          | some q => pcChars q == pcChars rp
          | none => false) with
        | some idx =>
          if isNoteDifferentInParallelMinorL chordRoot k.scale pms then
            generateBorrowedRomanNumeral (idx + 1)
          else none
        | none => none
      | none => none
  else none

/-- detectSecondaryDominant of the chord-function module: for a
dominant-seventh-quality symbol, the target root is the chord root
transposed up a perfect fourth; the target must be diatonic and must not
be scale degree 1. -/
def detectSecondaryDominantL (symbol chordRoot : List Char) (k : KeyDef) :
    Option ChordFunctionResult :=
  if !isDominant7thL symbol then none
  else
    let targetRoot := transposeFifths chordRoot (-1)
    if targetRoot = [] then none
    else
      match getScaleDegreeL targetRoot k with
      | some targetScaleDegree =>
        if targetScaleDegree = 1 then none
        else
          let targetRoman := generateRomanNumeral targetScaleDegree k.mode
          some {
            function := "secondary-dominant"
            roman := "V/" ++ targetRoman
            color := "red"
            scaleDegree := getScaleDegreeL chordRoot k
            chordRoot := ⟨chordRoot⟩
            borrowedFrom := none
            targetsDegree := some targetScaleDegree
            description := some ("副屬和弦 - 指向 " ++ targetRoman ++ " 級的屬和弦") }
      | none => none

/-- The body of analyzeChordFunction once a chord root has been
extracted: secondary-dominant check first (only when dominant-seventh
quality and the degree is not 5), then plain diatonic classification,
then the borrowed-chord check, else none. -/
def analyzeWithRoot (symbol chordRoot : List Char) (k : KeyDef) :
    Option ChordFunctionResult :=
  let scaleDegree := getScaleDegreeL chordRoot k
  let secondary :=
    if isDominant7thL symbol && scaleDegree != some 5 then
      detectSecondaryDominantL symbol chordRoot k
    else none
  match secondary with
  | some r => some r
  | none =>
    match scaleDegree with
    | some d =>
      some {
        function := (getHarmonicFunction d k.mode).1
        roman := generateRomanNumeral d k.mode
        color := (getHarmonicFunction d k.mode).2
        scaleDegree := some d
        chordRoot := ⟨chordRoot⟩
        borrowedFrom := none
        targetsDegree := none
        description := none }
    | none =>
      match detectBorrowedChordL chordRoot k with
      | some b =>
        some {
          function := "borrowed"
          roman := b.roman
          color := b.color
          scaleDegree := some b.scaleDegree
          chordRoot := ⟨chordRoot⟩
          borrowedFrom := some b.borrowedFrom
          targetsDegree := none
          description := some b.description }
      | none => none

/-- analyzeChordFunction of the chord-function module on a character
list: an empty symbol is falsy and yields none, an unextractable root
yields none, otherwise the analysis body runs. -/
def analyzeChordFunctionL (symbol : List Char) (k : KeyDef) :
    Option ChordFunctionResult :=
  if symbol = [] then none
  else
    match extractChordRootL symbol with
    | some root => analyzeWithRoot symbol root k
    | none => none

/-- analyzeChordFunction on a string symbol. -/
def analyzeChordFunction (symbol : String) (k : KeyDef) :
    Option ChordFunctionResult :=
  analyzeChordFunctionL symbol.data k

/-- addHistoryItem of src/main.js: with a current chord, unshift its
symbol onto the history and keep the first 20 entries; without one the
history is unchanged. -/
def addHistoryItem (currentChord : Option String) (history : List String) :
    List String :=
  match currentChord with
  | none => history
  | some sym => (sym :: history).take 20

/-- The fifth scale note of a key (scale degree 5). -/
def fifthScaleNote (k : KeyDef) : String := k.scale.getD 4 ""

/-! Helper lemmas shared by the claim theorems. -/

lemma tmod_twelve_eq_emod (a : Int) (ha : 0 ≤ a) : a.tmod 12 = a.emod 12 := by
  obtain ⟨m0, rfl⟩ := Int.eq_ofNat_of_zero_le ha
  rfl

lemma semiOf_bounds (st : Nat) : 0 ≤ semiOf st ∧ semiOf st ≤ 11 := by
  rcases st with _ | _ | _ | _ | _ | _ | _ | st <;> simp [semiOf]

lemma chroma_bounds (p : PNote) (h : -120 ≤ p.alt) : 0 ≤ chroma p ∧ chroma p < 12 := by
  obtain ⟨hs0, hs1⟩ := semiOf_bounds p.step
  have hnum : 0 ≤ semiOf p.step + p.alt + 120 := by omega
  unfold chroma
  rw [tmod_twelve_eq_emod _ hnum]
  exact ⟨Int.emod_nonneg _ (by norm_num), Int.emod_lt_of_pos _ (by norm_num)⟩

lemma diatonicStep_cases (c : Int) (acc : Option String) (n : String) (d0 : String)
    (h : diatonicStep c acc n = some d0) :
    noteChroma d0 = some c ∨ acc = some d0 := by
  unfold diatonicStep at h
  split at h
  · rename_i cn heq
    split at h
    · rename_i hc
      cases h
      left
      rw [heq, hc]
    · right; exact h
  · right; exact h

lemma foldl_diatonic_chroma (c : Int) (d : String) :
    ∀ (scale : List String) (acc : Option String),
      (∀ d0, acc = some d0 → noteChroma d0 = some c) →
      scale.foldl (diatonicStep c) acc = some d → noteChroma d = some c := by
  intro scale
  induction scale with
  | nil => exact fun acc hacc h => hacc d h
  | cons n ns ih =>
    intro acc hacc h
    rw [List.foldl_cons] at h
    refine ih _ ?_ h
    intro d0 hd0
    rcases diatonicStep_cases c acc n d0 hd0 with h1 | h1
    · exact h1
    · exact hacc d0 h1

lemma diatonicMapGet_chroma (k : KeyDef) (c : Int) (d : String)
    (h : diatonicMapGet k c = some d) : noteChroma d = some c :=
  foldl_diatonic_chroma c d k.scale none (fun _ hd0 => nomatch hd0) h

lemma selectAccidentalName_chroma (c : Int) (preference : String) (h0 : 0 ≤ c)
    (h1 : c < 12) :
    ∃ t, selectAccidentalName c preference = some t ∧ noteChroma t = some c := by
  unfold selectAccidentalName
  cases hb : (preference == "flat") <;> simp only [hb, if_true, if_false] <;>
    rw [if_pos h0] <;> interval_cases c <;> exact ⟨_, rfl, by decide⟩

lemma analyzeWithRoot_unparseable_root (symbol root : List Char) (k : KeyDef)
    (h : noteGetL root = none) : analyzeWithRoot symbol root k = none := by
  have hdeg : getScaleDegreeL root k = none := by rw [getScaleDegreeL, h]
  have hsec : detectSecondaryDominantL symbol root k = none := by
    rw [detectSecondaryDominantL]
    cases hdom : isDominant7thL symbol with
    | false => simp [hdom]
    | true =>
      have htr : transposeFifths root (-1) = [] := by rw [transposeFifths, h]
      simp [hdom, htr]
  have hbor : detectBorrowedChordL root k = none := by
    rw [detectBorrowedChordL]
    by_cases hm : (k.mode == "major") = true
    · rw [if_pos hm]
      by_cases hid : (k.id == "") = true
      · rw [if_pos hid]
      · rw [if_neg hid]
        dsimp only
        rw [h]
    · rw [if_neg hm]
  rw [analyzeWithRoot]
  simp [hdeg, hsec, hbor]

lemma upper_letter_facts :
    ∀ c ∈ (['A', 'B', 'C', 'D', 'E', 'F', 'G'] : List Char),
      (letterStep c).isSome = true ∧ (noteGetL [c, 'b']).isSome = true ∧
        noteGetL [Char.toUpper c, 'B'] = none := by decide

/-! Claim theorems. -/

/-- Claim C1: the claim expects every scale note of every key to be
classified at its own degree, but a flat-spelled scale note fails: in F
major the fourth scale note Bb is analyzed as null, because
extractChordRoot uppercases the matched root into the unparseable BB. On
sharp-spelled scale notes the claimed classification does hold, shown
here for the seventh degree E# of F# major. -/
theorem analyzeChordFunction_flat_scale_note_bug :
    analyzeChordFunction "Bb" (getKeyDefinition "F" "major") = none ∧
    (analyzeChordFunction "E#" (getKeyDefinition "F#" "major")).map
        (fun r => (r.scaleDegree, r.roman, r.function, r.color)) =
      some (some 7, "vii°", "dominant", "red") := by decide

/-- Claim C2: the claim expects borrowed-chord results for Ab and Bb in C
major, but both are analyzed as null (the uppercased roots AB and BB do
not parse); the borrowed table is reachable only through the sharp
enharmonic spellings, as G# (bVI, blue, borrowed from minor) and A#
(bVII, red) show. -/
theorem analyzeChordFunction_borrowed_bug :
    analyzeChordFunction "Ab" (getKeyDefinition "C" "major") = none ∧
    analyzeChordFunction "Bb" (getKeyDefinition "C" "major") = none ∧
    (analyzeChordFunction "G#" (getKeyDefinition "C" "major")).map
        (fun r => (r.function, r.roman, r.color, r.borrowedFrom)) =
      some ("borrowed", "bVI", "blue", some "minor") ∧
    (analyzeChordFunction "A#" (getKeyDefinition "C" "major")).map
        (fun r => (r.function, r.roman, r.color)) =
      some ("borrowed", "bVII", "red") := by decide

/-- Claim C3: in C major, A7 is a secondary dominant V/ii targeting degree
2 (the chord root A transposed up a perfect fourth is D), and D7 yields
V/V targeting degree 5. -/
theorem analyzeChordFunction_secondary_dominant :
    (analyzeChordFunction "A7" (getKeyDefinition "C" "major")).map
        (fun r => (r.function, r.roman, r.color, r.targetsDegree)) =
      some ("secondary-dominant", "V/ii", "red", some 2) ∧
    transposeFifths ['A'] (-1) = ['D'] ∧
    (analyzeChordFunction "D7" (getKeyDefinition "C" "major")).map
        (fun r => (r.function, r.roman, r.targetsDegree)) =
      some ("secondary-dominant", "V/V", some 5) := by decide

/-- Claim C4: across all 30 supported keys, a dominant seventh on the
fifth scale note is never classified secondary-dominant (first conjunct),
and in C major G7 is indeed the plain degree-5 dominant; but the claim's
own example Bb7 in Eb major is analyzed as null (uppercased root BB does
not parse) instead of the claimed dominant classification. -/
theorem dominant7_on_fifth_degree_bug :
    (KEY_DEFINITIONS.all (fun k =>
      (analyzeChordFunction (fifthScaleNote k ++ "7") k).all
        (fun r => r.function != "secondary-dominant"))) = true ∧
    analyzeChordFunction "Bb7" (getKeyDefinition "Eb" "major") = none ∧
    (analyzeChordFunction "G7" (getKeyDefinition "C" "major")).map
        (fun r => (r.function, r.color, r.scaleDegree, r.roman)) =
      some ("dominant", "red", some 5, "V") := by decide

/-- Claim C5: for every supported key and every chord symbol whose leading
note token after sanitizing is a letter A-G followed by a flat mark, the
analysis returns null: the extracted root is uppercased into a name whose
trailing B no longer parses as an accidental, so the scale-degree lookup,
the secondary-dominant transposition and the borrowed-chord check all
fail. -/
theorem analyzeChordFunction_flat_root_null :
    ∀ (s : String), ∀ k ∈ KEY_DEFINITIONS, ∀ (c0 : Char) (rest : List Char),
      s.data.filter (fun c => !isStripped c) = c0 :: 'b' :: rest →
      c0 ∈ (['A', 'B', 'C', 'D', 'E', 'F', 'G'] : List Char) →
      analyzeChordFunction s k = none := by
  intro s k _hk c0 rest hfilter hc0
  obtain ⟨hstep, hroot, hBB⟩ := upper_letter_facts c0 hc0
  have hsnil : ¬ s.data = [] := by
    intro he
    rw [he] at hfilter
    simp at hfilter
  have hextract : extractChordRootL s.data = some [Char.toUpper c0, 'B'] := by
    rw [extractChordRootL, hfilter]
    dsimp only
    rw [if_pos hstep, if_pos (by simp : 'b' = '#' ∨ 'b' = 'b' ∨ 'b' = 'B')]
    rw [if_pos hroot]
    rfl
  rw [analyzeChordFunction, analyzeChordFunctionL, if_neg hsnil, hextract]
  exact analyzeWithRoot_unparseable_root s.data _ k hBB

/-- Witness for claim C5: the hypotheses hold for the symbol Bb7 in the C
major key, and the analysis is null. -/
theorem analyzeChordFunction_flat_root_null_witness :
    analyzeChordFunction "Bb7" (getKeyDefinition "C" "major") = none :=
  analyzeChordFunction_flat_root_null "Bb7" (getKeyDefinition "C" "major") (by decide)
    'B' ['7'] (by decide) (by decide)

/-- Claim C6: in C major, the non-diatonic chords Eb and F# are both
analyzed as null. -/
theorem analyzeChordFunction_nondiatonic_null :
    analyzeChordFunction "Eb" (getKeyDefinition "C" "major") = none ∧
    analyzeChordFunction "F#" (getKeyDefinition "C" "major") = none := by decide

/-- Claim C7: for every supported key and every note name with a defined
chroma (the -120 bound on the alteration admits every note name of the
spec's grammar, which allows at most double accidentals; only a name with
over 120 flat marks would drive the truncated remainder negative),
re-spelling the note in the key produces a name with the same chroma. -/
theorem spellNoteInKey_preserves_chroma :
    ∀ k ∈ KEY_DEFINITIONS, ∀ (s : String) (p : PNote),
      noteGet s = some p → -120 ≤ p.alt →
      ∃ t, spellNoteInKey s k = some t ∧ noteChroma t = noteChroma s := by
  intro k _hk s p hp halt
  have hcs : noteChroma s = some (chroma p) := by
    unfold noteChroma noteChromaL
    unfold noteGet at hp
    rw [hp]
    rfl
  obtain ⟨h0, h1⟩ := chroma_bounds p halt
  rw [spellNoteInKey, hcs]
  dsimp only
  cases hdia : diatonicMapGet k (chroma p) with
  | some d =>
    have hd := diatonicMapGet_chroma k _ d hdia
    have hne : ¬ d = "" := by
      intro he
      rw [he] at hd
      have hnone : noteChroma "" = none := rfl
      rw [hnone] at hd
      exact Option.noConfusion hd
    refine ⟨d, ?_, hd⟩
    dsimp only
    rw [if_neg hne]
  | none =>
    obtain ⟨t, ht, htc⟩ := selectAccidentalName_chroma (chroma p) k.accidental h0 h1
    refine ⟨t, ?_, htc⟩
    dsimp only
    rw [ht]

/-- Witness for claim C7: the note Gb (chroma 6) in the C major key. -/
theorem spellNoteInKey_preserves_chroma_witness :
    ∃ t, spellNoteInKey "Gb" (getKeyDefinition "C" "major") = some t ∧
      noteChroma t = noteChroma "Gb" :=
  spellNoteInKey_preserves_chroma (getKeyDefinition "C" "major") (by decide)
    "Gb" ⟨4, -1⟩ (by decide) (by decide)

/-- Claim C8: a chroma present in the key's diatonic map is always spelled
with the stored diatonic spelling, overriding the chromatic sharp/flat
tables. -/
theorem spellNoteInKey_diatonic_precedence :
    ∀ k ∈ KEY_DEFINITIONS, ∀ (s : String) (c : Int) (d : String),
      noteChroma s = some c → diatonicMapGet k c = some d →
      spellNoteInKey s k = some d := by
  intro k _hk s c d hs hd
  have hchr := diatonicMapGet_chroma k c d hd
  have hne : ¬ d = "" := by
    intro he
    rw [he] at hchr
    have hnone : noteChroma "" = none := rfl
    rw [hnone] at hchr
    exact Option.noConfusion hchr
  rw [spellNoteInKey, hs]
  dsimp only
  rw [hd]
  dsimp only
  rw [if_neg hne]

/-- Witness for claim C8: in C# major the chroma of F (5) is diatonically
mapped, and the spelling is E#, not F and not F#. -/
theorem spellNoteInKey_diatonic_precedence_witness :
    spellNoteInKey "F" (getKeyDefinition "C#" "major") = some "E#" ∧
      ("E#" : String) ≠ "F" ∧ ("E#" : String) ≠ "F#" :=
  ⟨spellNoteInKey_diatonic_precedence (getKeyDefinition "C#" "major") (by decide)
      "F" 5 "E#" (by decide) (by decide),
    by decide, by decide⟩

/-- Claim C9: getKeyDefinition always yields a catalog entry; a matching
(root, mode) pair yields that entry, and any other pair deterministically
yields the first catalog entry, which is C major. -/
theorem getKeyDefinition_total_with_fallback :
    ∀ (root mode : String),
      getKeyDefinition root mode ∈ KEY_DEFINITIONS ∧
      (∀ k, KEY_DEFINITIONS.find? (fun e => e.id == root && e.mode == mode) = some k →
        getKeyDefinition root mode = k) ∧
      (KEY_DEFINITIONS.find? (fun e => e.id == root && e.mode == mode) = none →
        getKeyDefinition root mode = KEY_DEFINITIONS.headI) ∧
      KEY_DEFINITIONS.headI.id = "C" ∧ KEY_DEFINITIONS.headI.mode = "major" := by
  intro root mode
  have hC : KEY_DEFINITIONS.headI.id = "C" := by decide
  have hM : KEY_DEFINITIONS.headI.mode = "major" := by decide
  refine ⟨?_, ?_, ?_, hC, hM⟩
  · rw [getKeyDefinition]
    cases hf : KEY_DEFINITIONS.find? (fun e => e.id == root && e.mode == mode) with
    | some k =>
      dsimp only
      exact List.mem_of_find?_eq_some hf
    | none =>
      dsimp only
      decide
  · intro k hf
    rw [getKeyDefinition, hf]
  · intro hf
    rw [getKeyDefinition, hf]

/-- Witness for claim C9: a matching lookup returns the G minor entry, and
a lookup of the unsupported root H falls back to the first entry. -/
theorem getKeyDefinition_total_with_fallback_witness :
    getKeyDefinition "G" "minor" =
      ⟨"G", "G minor", "minor", ["G", "A", "Bb", "C", "D", "Eb", "F"], "flat"⟩ ∧
    getKeyDefinition "H" "major" = KEY_DEFINITIONS.headI :=
  ⟨(getKeyDefinition_total_with_fallback "G" "minor").2.1 _ (by decide),
    (getKeyDefinition_total_with_fallback "H" "major").2.2.1 (by decide)⟩

/-- Claim C10 counterexample: inserting a symbol already present is not
de-duplicated - adding C to the history that already holds C yields a
list with a duplicate. -/
theorem addHistoryItem_no_dedup_counterexample :
    addHistoryItem (some "C") ["C"] = ["C", "C"] ∧
      ¬ (addHistoryItem (some "C") ["C"]).Nodup := by decide

/-- Claim C10 (amended): after every insertion with a current chord, from
any starting history, the newly added symbol is in first position and the
list holds at most 20 entries; insertions are not de-duplicated. -/
theorem addHistoryItem_head_and_cap :
    ∀ (sym : String) (history : List String),
      (addHistoryItem (some sym) history).head? = some sym ∧
        (addHistoryItem (some sym) history).length ≤ 20 := by
  intro sym history
  constructor
  · rw [addHistoryItem]
    rfl
  · rw [addHistoryItem]
    simp only [List.length_take]
    omega

end Chordfinder
